import Mathlib

/-!
# Verification of the clawnet Python SDK transport core

Shallow embedding of `packages/sdk-python/src/clawtoken/http.py`,
`node.py`, `exceptions.py` and `clawnet/wallet.py`.

Conventions of the embedding:
* JSON values are modelled by the inductive `ClawNet.Json`; a parsed Python
  dict is `Json.obj` over an association list with unique keys (Python's
  JSON decoder produces dicts, whose keys are unique).
* An HTTP response, as observed by the client, is `ClawNet.Response`:
  the numeric status, the decoded body text (`resp.text`), and the result
  of `resp.json()` (`none` when the body is not valid JSON, i.e. when the
  Python call raises).
* httpx verbs are pure: each client verb takes the server's `Response` as
  an argument and returns the `Request` it issues together with the
  outcome (`ok` for a returned JSON value, `nodeError` for a raised
  `ClawTokenError`, `decodeError` for a raised JSON decode failure on a
  success status).
* Python floats (poll interval, timeout) are modelled as exact rationals;
  wall-clock time in `wait_for_sync` is modelled with instantaneous
  fetches, so the elapsed time at the deadline check after fetch `n`
  is `n * interval`. The unbounded `while True` loop is modelled with
  explicit fuel.
-/

namespace ClawNet

/-- A JSON value (numbers modelled as integers; the claims under study
never depend on fractional numeric literals). -/
inductive Json where
  | null
  | bool (b : Bool)
  | num (n : Int)
  | str (s : String)
  | arr (xs : List Json)
  | obj (fields : List (String × Json))

/-- Python `d.get(k, default)` on a parsed JSON dict. -/
def dictGetD (fields : List (String × Json)) (k : String) (d : Json) : Json :=
  (fields.lookup k).getD d

/-- Python truthiness of a JSON value (`if status.get("synced"):`).
`None`, `False`, `0`, `""`, `[]` and `{}` are falsy. -/
def Json.truthy : Json → Bool
  | .null => false
  | .bool b => b
  | .num n => n != 0
  | .str s => s != ""
  | .arr xs => !xs.isEmpty
  | .obj fs => !fs.isEmpty

/-- An HTTP response as the client observes it: status code, decoded body
text, and the result of `resp.json()` (`none` when parsing raises). -/
structure Response where
  status : Nat
  text : String
  body : Option Json

/-- httpx `resp.is_success`: `200 <= status < 300`. -/
def isSuccess (status : Nat) : Bool :=
  200 ≤ status && status < 300

/-- `clawtoken/exceptions.py` `ClawTokenError`: message (a Python value,
here a JSON value since it comes from a decoded body or the body text),
HTTP status, machine-readable code (`Json.null` models Python `None`,
i.e. unset), details. -/
structure ClawTokenError where
  message : Json
  status : Nat
  code : Json
  details : Json := Json.null

/-- The `(msg, code)` pair computed by `_handle_error` on a non-success
response (http.py lines 28-34). The `try`/`except` around `resp.json()`
and the two `.get` chains collapses to: any parse failure, non-dict body,
or non-dict `error` value falls back to the raw text with an unset code. -/
def handleErrorPair (resp : Response) : Json × Json :=
  let fallback : Json × Json := (Json.str resp.text, Json.null)
  match resp.body with
  | none => fallback
  | some body =>
    match body with
    | .obj fields =>
      match dictGetD fields "error" (Json.obj []) with
      | .obj errFields =>
        (dictGetD errFields "message" (Json.str resp.text),
         dictGetD errFields "code" Json.null)
      | _ => fallback
    | _ => fallback

/-- `clawtoken/http.py` `_handle_error`: `none` when the response status is
a success (the Python function returns without raising); otherwise `some`
of the `ClawTokenError` raised. -/
def handle_error (resp : Response) : Option ClawTokenError :=
  if isSuccess resp.status then
    none
  else
    some { message := (handleErrorPair resp).1, status := resp.status,
           code := (handleErrorPair resp).2 }

/-- A query-parameter value as passed by the SDK wrappers: a string or an
integer (`urlencode` stringifies non-string scalars with `str`). -/
inductive QVal where
  | str (s : String)
  | int (n : Int)
  deriving DecidableEq

/-- `str(v)` for a query value. -/
def QVal.toText : QVal → String
  | .str s => s
  | .int n => toString n

/-- Characters `urllib.parse.quote_plus` leaves unescaped
(ASCII letters, digits, `_`, `.`, `-`, `~`). -/
def isUrlSafe (c : Char) : Bool :=
  c.isAlphanum || c = '_' || c = '.' || c = '-' || c = '~'

/-- Upper-case hexadecimal digit. -/
def hexDigit (n : Nat) : Char :=
  "0123456789ABCDEF".data.getD n '0'

/-- `%XX` escape of one byte. -/
def pctByte (b : Nat) : String :=
  String.mk ['%', hexDigit (b / 16), hexDigit (b % 16)]

/-- UTF-8 bytes of a code point. -/
def utf8Bytes (n : Nat) : List Nat :=
  if n < 0x80 then [n]
  else if n < 0x800 then [0xC0 + n / 64, 0x80 + n % 64]
  else if n < 0x10000 then
    [0xE0 + n / 4096, 0x80 + (n / 64) % 64, 0x80 + n % 64]
  else
    [0xF0 + n / 262144, 0x80 + (n / 4096) % 64, 0x80 + (n / 64) % 64,
     0x80 + n % 64]

/-- `urllib.parse.quote_plus` on one character (safe set empty, as
`urlencode` uses it): space becomes `+`, unreserved characters pass
through, everything else is percent-escaped byte by byte. -/
def quotePlusChar (c : Char) : String :=
  if c = ' ' then "+"
  else if isUrlSafe c then String.mk [c]
  else String.join ((utf8Bytes c.toNat).map pctByte)

/-- `urllib.parse.quote_plus` on a string. -/
def quote_plus (s : String) : String :=
  String.join (s.data.map quotePlusChar)

/-- `urllib.parse.urlencode` over the filtered parameter list (scalar
values; `doseq` only changes the treatment of sequence values, which the
SDK wrappers never pass). -/
def urlencode (l : List (String × QVal)) : String :=
  String.intercalate "&"
    (l.map (fun p => quote_plus p.1 ++ "=" ++ quote_plus p.2.toText))

/-- Python `s.rstrip("/")`. -/
def rstripSlash (s : String) : String :=
  String.mk ((s.data.reverse.dropWhile (fun c => c = '/')).reverse)

/-- `clawtoken/http.py` `_build_url`. `params = none` models passing
`None`; `if params:` is false for `None` and for the empty dict; `None`
values are filtered out; a non-empty filtered dict is urlencoded after
`?`. -/
def build_url (base : String) (path : String)
    (params : Option (List (String × Option QVal))) : String :=
  let url := rstripSlash base ++ path
  match params with
  | none => url
  | some ps =>
    if ps.isEmpty then url
    else
      let filtered := ps.filterMap (fun p => p.2.map (fun v => (p.1, v)))
      if filtered.isEmpty then url else url ++ "?" ++ urlencode filtered

/-- Header dictionaries: `d[k] = v` on a Python dict modelled as an
association list with unique keys — replace the binding in place (keeping
its position, as a Python dict does) or append a fresh one. -/
def dictSet : List (String × String) → String → String →
    List (String × String)
  | [], k, v => [(k, v)]
  | (a, b) :: tl, k, v =>
    if a = k then (k, v) :: tl else (a, b) :: dictSet tl k v

/-- Python `d.update(upd)`: set each key of `upd` in order. -/
def dictUpdate (d upd : List (String × String)) : List (String × String) :=
  upd.foldl (fun acc p => dictSet acc p.1 p.2) d

/-- The header dict built in `HttpClient.__init__` (lines 54-58):
default `Content-Type`, then `Authorization: Bearer <key>` when `api_key`
is truthy, then `_headers.update(headers)` when `headers` is truthy. -/
def mkHeaders (api_key : Option String)
    (headers : Option (List (String × String))) : List (String × String) :=
  let h0 : List (String × String) := [("Content-Type", "application/json")]
  let h1 :=
    match api_key with
    | some k => if k != "" then dictSet h0 "Authorization" ("Bearer " ++ k) else h0
    | none => h0
  match headers with
  | some hs => if hs.isEmpty then h1 else dictUpdate h1 hs
  | none => h1

/-- HTTP method of an issued request. -/
inductive Method where
  | GET
  | POST
  | PUT
  | DELETE

/-- The request a client verb hands to httpx: method, full URL, the
headers configured on the underlying `httpx.Client`, and the JSON body
(`none` for the body-less verbs and for `json=None`). -/
structure Request where
  method : Method
  url : String
  headers : List (String × String)
  body : Option Json

/-- Outcome of one client verb: the returned decoded JSON value, a raised
`ClawTokenError`, or a raised JSON decode error (`resp.json()` failing on
a success-status body). -/
inductive HttpResult where
  | ok (j : Json)
  | nodeError (e : ClawTokenError)
  | decodeError

/-- `_handle_error(resp)` followed by `return resp.json()` — the shared
tail of every verb. -/
def finish (resp : Response) : HttpResult :=
  match handle_error resp with
  | some e => .nodeError e
  | none =>
    match resp.body with
    | some j => .ok j
    | none => .decodeError

/-- `clawtoken/http.py` `HttpClient` configuration: base URL (stripped of
trailing slashes at construction), timeout, and the headers attached to
every request by the underlying `httpx.Client`. -/
structure HttpClient where
  base_url : String
  timeout : ℚ
  headers : List (String × String)

/-- `HttpClient.__init__`. -/
def HttpClient.init (base_url : String) (timeout : ℚ)
    (api_key : Option String) (headers : Option (List (String × String))) :
    HttpClient :=
  { base_url := rstripSlash base_url
    timeout := timeout
    headers := mkHeaders api_key headers }

/-- `HttpClient.get`: build the URL from path and params, issue a GET,
map errors, decode. -/
def HttpClient.get (c : HttpClient) (path : String)
    (params : Option (List (String × Option QVal))) (resp : Response) :
    Request × HttpResult :=
  let url := build_url c.base_url path params
  (⟨.GET, url, c.headers, none⟩, finish resp)

/-- `HttpClient.post`: URL built without params, JSON body forwarded. -/
def HttpClient.post (c : HttpClient) (path : String) (body : Option Json)
    (resp : Response) : Request × HttpResult :=
  let url := build_url c.base_url path none
  (⟨.POST, url, c.headers, body⟩, finish resp)

/-- `HttpClient.put`. -/
def HttpClient.put (c : HttpClient) (path : String) (body : Option Json)
    (resp : Response) : Request × HttpResult :=
  let url := build_url c.base_url path none
  (⟨.PUT, url, c.headers, body⟩, finish resp)

/-- `HttpClient.delete`. -/
def HttpClient.delete (c : HttpClient) (path : String)
    (params : Option (List (String × Option QVal))) (resp : Response) :
    Request × HttpResult :=
  let url := build_url c.base_url path params
  (⟨.DELETE, url, c.headers, none⟩, finish resp)

/-- `clawtoken/http.py` `AsyncHttpClient` configuration (lines 104-118):
textually parallel to the synchronous client; the cooperative suspension
points (`await`) vanish in the pure embedding. -/
structure AsyncHttpClient where
  base_url : String
  timeout : ℚ
  headers : List (String × String)

/-- `AsyncHttpClient.__init__`. -/
def AsyncHttpClient.init (base_url : String) (timeout : ℚ)
    (api_key : Option String) (headers : Option (List (String × String))) :
    AsyncHttpClient :=
  { base_url := rstripSlash base_url
    timeout := timeout
    headers := mkHeaders api_key headers }

/-- `AsyncHttpClient.get` (lines 122-126). -/
def AsyncHttpClient.get (c : AsyncHttpClient) (path : String)
    (params : Option (List (String × Option QVal))) (resp : Response) :
    Request × HttpResult :=
  let url := build_url c.base_url path params
  (⟨.GET, url, c.headers, none⟩, finish resp)

/-- `AsyncHttpClient.post` (lines 128-132). -/
def AsyncHttpClient.post (c : AsyncHttpClient) (path : String)
    (body : Option Json) (resp : Response) : Request × HttpResult :=
  let url := build_url c.base_url path none
  (⟨.POST, url, c.headers, body⟩, finish resp)

/-- `AsyncHttpClient.put` (lines 134-138). -/
def AsyncHttpClient.put (c : AsyncHttpClient) (path : String)
    (body : Option Json) (resp : Response) : Request × HttpResult :=
  let url := build_url c.base_url path none
  (⟨.PUT, url, c.headers, body⟩, finish resp)

/-- `AsyncHttpClient.delete` (lines 140-144). -/
def AsyncHttpClient.delete (c : AsyncHttpClient) (path : String)
    (params : Option (List (String × Option QVal))) (resp : Response) :
    Request × HttpResult :=
  let url := build_url c.base_url path params
  (⟨.DELETE, url, c.headers, none⟩, finish resp)

/-- `clawnet/wallet.py` `WalletApi.get_balance`: add `did` / `address`
to the params dict only when truthy (non-empty), then
`self._http.get("/api/wallet/balance", params or None)`. -/
def WalletApi.get_balance (c : HttpClient) (did address : Option String)
    (resp : Response) : Request × HttpResult :=
  let p1 : List (String × Option QVal) :=
    match did with
    | some d => if d != "" then [("did", some (QVal.str d))] else []
    | none => []
  let p2 : List (String × Option QVal) :=
    match address with
    | some a => if a != "" then p1 ++ [("address", some (QVal.str a))] else p1
    | none => p1
  c.get "/api/wallet/balance" (if p2.isEmpty then none else some p2) resp

/-- Outcome of `NodeApi.wait_for_sync`, with fetch and sleep counts made
explicit: `done status fetches sleeps` models a normal return,
`timedOut fetches sleeps` the raised `TimeoutError`, `outOfFuel` an
exhausted fuel bound (the Python loop is unbounded). -/
inductive WaitResult where
  | done (status : List (String × Json)) (fetches : Nat) (sleeps : Nat)
  | timedOut (fetches : Nat) (sleeps : Nat)
  | outOfFuel

/-- The `while True` loop of `NodeApi.wait_for_sync` (node.py lines
44-51; `AsyncNodeApi.wait_for_sync`, lines 82-89, is line-identical with
`asyncio.sleep` in place of `time.sleep`), at the point just before fetch
number `n` (0-based). Fetches are
instantaneous, each earlier iteration slept `interval`, so the monotonic
clock at the deadline check after fetch `n` reads `n * interval` past the
start, and `now >= deadline` is `n * interval ≥ timeout`. The fetched
statuses are the parsed JSON dicts the server returns, one per fetch. -/
def waitLoop (statuses : Nat → List (String × Json)) (interval timeout : ℚ) :
    Nat → Nat → WaitResult
  | 0, _ => .outOfFuel
  | fuel + 1, n =>
    let status := statuses n
    if (dictGetD status "synced" Json.null).truthy then
      .done status (n + 1) n
    else if timeout ≤ (n : ℚ) * interval then
      .timedOut (n + 1) n
    else
      waitLoop statuses interval timeout fuel (n + 1)

/-- `NodeApi.wait_for_sync(interval, timeout)` against the given sequence
of status responses. -/
def wait_for_sync (statuses : Nat → List (String × Json))
    (interval timeout : ℚ) (fuel : Nat) : WaitResult :=
  waitLoop statuses interval timeout fuel 0

/-- Number of sleeps after which the deadline check first fires when no
fetch reports synced: the least `n` with `n * interval ≥ timeout`. -/
def timeoutSteps (interval timeout : ℚ) : Nat :=
  ⌈timeout / interval⌉₊

/-- Body shapes of a non-2xx response for which `_handle_error` takes the
full fallback path (raw text as message, code unset): the body fails to
parse, parses to a non-dict, or parses to a dict whose `error` value is
not a dict. -/
def plainFallback : Option Json → Bool
  | none => true
  | some (.obj fields) =>
    match dictGetD fields "error" (Json.obj []) with
    | .obj _ => false
    | _ => true
  | some _ => true

/-- A status endpoint that always reports synced (used as a concrete
status sequence). -/
def constSynced : Nat → List (String × Json) :=
  fun _ => [("synced", Json.bool true), ("blockHeight", Json.num 100)]

/-- A status endpoint that never reports synced (used as a concrete
status sequence). -/
def constUnsynced : Nat → List (String × Json) :=
  fun _ => [("synced", Json.bool false)]

/-! ## Helper lemmas -/

lemma handle_error_success {resp : Response} (h : isSuccess resp.status = true) :
    handle_error resp = none := by
  unfold handle_error
  rw [h]
  rfl

lemma handle_error_failure {resp : Response} (h : isSuccess resp.status = false) :
    handle_error resp =
      some { message := (handleErrorPair resp).1, status := resp.status,
             code := (handleErrorPair resp).2 } := by
  unfold handle_error handleErrorPair
  rw [h]
  rfl

lemma finish_success_ok {resp : Response} {j : Json}
    (h1 : isSuccess resp.status = true) (h2 : resp.body = some j) :
    finish resp = .ok j := by
  unfold finish
  rw [handle_error_success h1, h2]

lemma finish_success_decode {resp : Response}
    (h1 : isSuccess resp.status = true) (h2 : resp.body = none) :
    finish resp = .decodeError := by
  unfold finish
  rw [handle_error_success h1, h2]

lemma finish_failure {resp : Response} (h : isSuccess resp.status = false) :
    finish resp = .nodeError
      { message := (handleErrorPair resp).1, status := resp.status,
        code := (handleErrorPair resp).2 } := by
  unfold finish
  rw [handle_error_failure h]

lemma handleErrorPair_obj (status : Nat) (text : String)
    (fields : List (String × Json)) :
    handleErrorPair ⟨status, text, some (Json.obj fields)⟩ =
      match dictGetD fields "error" (Json.obj []) with
      | Json.obj errFields =>
        (dictGetD errFields "message" (Json.str text),
         dictGetD errFields "code" Json.null)
      | _ => (Json.str text, Json.null) := rfl

lemma deadline_iff {interval timeout : ℚ} (hi : 0 < interval) (n : Nat) :
    (timeout ≤ (n : ℚ) * interval) ↔ timeoutSteps interval timeout ≤ n := by
  rw [timeoutSteps, Nat.ceil_le, div_le_iff₀ hi]

lemma waitLoop_never_synced {statuses : Nat → List (String × Json)}
    {interval timeout : ℚ} (hi : 0 < interval)
    (hns : ∀ n, (dictGetD (statuses n) "synced" Json.null).truthy = false) :
    ∀ (fuel n : Nat), n ≤ timeoutSteps interval timeout →
      timeoutSteps interval timeout - n < fuel →
      waitLoop statuses interval timeout fuel n =
        .timedOut (timeoutSteps interval timeout + 1)
          (timeoutSteps interval timeout) := by
  intro fuel
  induction fuel with
  | zero => intro n _ h2; omega
  | succ f ih =>
    intro n h1 h2
    rw [waitLoop, hns n]
    simp only [Bool.false_eq_true, if_false]
    by_cases hd : timeout ≤ (n : ℚ) * interval
    · rw [if_pos hd]
      have hle : timeoutSteps interval timeout ≤ n := (deadline_iff hi n).mp hd
      have hn : n = timeoutSteps interval timeout := le_antisymm h1 hle
      rw [hn]
    · rw [if_neg hd]
      have hlt : n < timeoutSteps interval timeout := by
        rcases lt_or_ge n (timeoutSteps interval timeout) with hx | hx
        · exact hx
        · exact absurd ((deadline_iff hi n).mpr hx) hd
      exact ih (n + 1) (by omega) (by omega)

lemma waitLoop_timedOut_pos {statuses : Nat → List (String × Json)}
    {interval timeout : ℚ} :
    ∀ (fuel n k s : Nat),
      waitLoop statuses interval timeout fuel n = .timedOut k s → n < k := by
  intro fuel
  induction fuel with
  | zero => intro n k s h; simp [waitLoop] at h
  | succ f ih =>
    intro n k s h
    rw [waitLoop] at h
    by_cases hs : (dictGetD (statuses n) "synced" Json.null).truthy
    · rw [if_pos hs] at h
      exact absurd h (by simp)
    · rw [if_neg hs] at h
      by_cases hd : timeout ≤ (n : ℚ) * interval
      · rw [if_pos hd] at h
        have hk : n + 1 = k := by
          have := h
          simp only [WaitResult.timedOut.injEq] at this
          exact this.1
        omega
      · rw [if_neg hd] at h
        have := ih (n + 1) k s h
        omega

lemma timeoutSteps_two_three : timeoutSteps 2 3 = 2 := by
  rw [timeoutSteps, Nat.ceil_eq_iff (by norm_num)]
  constructor <;> norm_num

lemma timeoutSteps_two_three_lt : timeoutSteps 2 3 < 5 := by
  rw [timeoutSteps_two_three]
  norm_num

lemma filterMap_filter_isSome (ps : List (String × Option QVal)) :
    (ps.filter (fun p => p.2.isSome)).filterMap
        (fun p => p.2.map (fun v => (p.1, v))) =
      ps.filterMap (fun p => p.2.map (fun v => (p.1, v))) := by
  induction ps with
  | nil => rfl
  | cons hd tl ih =>
    obtain ⟨k, ov⟩ := hd
    cases ov with
    | none => simpa using ih
    | some v => simpa using ih

lemma build_url_some (base path : String)
    (ps : List (String × Option QVal)) :
    build_url base path (some ps) =
      (if (ps.filterMap (fun p => p.2.map (fun v => (p.1, v)))).isEmpty then
        rstripSlash base ++ path
      else
        rstripSlash base ++ path ++ "?" ++
          urlencode (ps.filterMap (fun p => p.2.map (fun v => (p.1, v))))) := by
  cases ps with
  | nil => rfl
  | cons hd tl => rfl

lemma lookup_dictSet_self (d : List (String × String)) (k v : String) :
    (dictSet d k v).lookup k = some v := by
  induction d with
  | nil => simp [dictSet, List.lookup]
  | cons hd tl ih =>
    obtain ⟨a, b⟩ := hd
    simp only [dictSet]
    by_cases hak : a = k
    · rw [if_pos hak]
      simp [List.lookup]
    · rw [if_neg hak]
      have hka : (k == a) = false := by simp [Ne.symm hak]
      simp [List.lookup, hka, ih]

lemma lookup_dictSet_ne (d : List (String × String)) (k v k' : String)
    (h : k' ≠ k) : (dictSet d k v).lookup k' = d.lookup k' := by
  induction d with
  | nil =>
    have hb : (k' == k) = false := by simp [h]
    simp [dictSet, List.lookup, hb]
  | cons hd tl ih =>
    obtain ⟨a, b⟩ := hd
    simp only [dictSet]
    by_cases hak : a = k
    · rw [if_pos hak]
      have h1 : (k' == k) = false := by simp [h]
      have h2 : (k' == a) = false := by
        rw [hak]
        exact h1
      simp [List.lookup, h1, h2]
    · rw [if_neg hak]
      cases hka : (k' == a) <;> simp [List.lookup, hka, ih]

lemma lookup_dictUpdate_not_mem (d upd : List (String × String)) (k : String)
    (h : ∀ p ∈ upd, p.1 ≠ k) :
    (dictUpdate d upd).lookup k = d.lookup k := by
  induction upd generalizing d with
  | nil => rfl
  | cons hd tl ih =>
    obtain ⟨a, b⟩ := hd
    have hstep : dictUpdate d ((a, b) :: tl) = dictUpdate (dictSet d a b) tl := rfl
    rw [hstep, ih (dictSet d a b) (fun p hp => h p (List.mem_cons_of_mem _ hp)),
      lookup_dictSet_ne]
    exact fun hk => h (a, b) (List.mem_cons_self _ _) hk.symm

lemma lookup_dictUpdate_mem (d upd : List (String × String)) (k v : String)
    (hnd : (upd.map Prod.fst).Nodup) (hl : upd.lookup k = some v) :
    (dictUpdate d upd).lookup k = some v := by
  induction upd generalizing d with
  | nil => simp [List.lookup] at hl
  | cons hd tl ih =>
    obtain ⟨a, b⟩ := hd
    rw [List.map_cons, List.nodup_cons] at hnd
    have hstep : dictUpdate d ((a, b) :: tl) = dictUpdate (dictSet d a b) tl := rfl
    rw [hstep]
    by_cases hka : k = a
    · have hb : b = v := by
        have hkb : (k == a) = true := by simp [hka]
        simpa [List.lookup, hkb] using hl
      subst hb
      have hnotin : ∀ p ∈ tl, p.1 ≠ k := by
        intro p hp hpk
        have hmem : p.1 ∈ tl.map Prod.fst := List.mem_map_of_mem Prod.fst hp
        rw [hpk, hka] at hmem
        exact hnd.1 hmem
      rw [lookup_dictUpdate_not_mem _ _ _ hnotin, hka, lookup_dictSet_self]
    · have hka' : (k == a) = false := by simp [hka]
      have hl' : tl.lookup k = some v := by
        simpa [List.lookup, hka'] using hl
      exact ih (dictSet d a b) hnd.2 hl'

/-! ## Claim theorems -/

/-- C4: for every response with a 2xx status whose body is valid JSON,
each of get/post/put/delete returns exactly the decoded JSON value the
server sent, with no field added, removed, or renamed, and raises no
error. -/
theorem success_returns_verbatim
    (c : HttpClient) (path : String)
    (params : Option (List (String × Option QVal))) (jbody : Option Json)
    (resp : Response) (j : Json)
    (h1 : isSuccess resp.status = true) (h2 : resp.body = some j) :
    (c.get path params resp).2 = .ok j ∧
    (c.post path jbody resp).2 = .ok j ∧
    (c.put path jbody resp).2 = .ok j ∧
    (c.delete path params resp).2 = .ok j := by
  have hf := finish_success_ok h1 h2
  exact ⟨hf, hf, hf, hf⟩

/-- Witness for C4: the spec's concrete POST scenario — `201` with body
`{"contractId": "ct-1", "txHash": "tx-1"}` is returned verbatim. -/
theorem success_returns_verbatim_witness :
    isSuccess 201 = true ∧
    ((HttpClient.init "http://n" 30 none none).post "/api/contracts"
        (some (Json.obj [("title", Json.str "Job")]))
        ⟨201, "",
          some (Json.obj [("contractId", Json.str "ct-1"),
                          ("txHash", Json.str "tx-1")])⟩).2 =
      .ok (Json.obj [("contractId", Json.str "ct-1"),
                     ("txHash", Json.str "tx-1")]) :=
  ⟨by decide,
   (success_returns_verbatim (HttpClient.init "http://n" 30 none none)
      "/api/contracts" none (some (Json.obj [("title", Json.str "Job")]))
      ⟨201, "",
        some (Json.obj [("contractId", Json.str "ct-1"),
                        ("txHash", Json.str "tx-1")])⟩
      (Json.obj [("contractId", Json.str "ct-1"),
                 ("txHash", Json.str "tx-1")])
      (by decide) rfl).2.1⟩

/-- C9: for every response with a 2xx status whose body is empty or not
valid JSON, each of get/post/put/delete surfaces the decode failure
rather than returning any default value. -/
theorem success_decode_failure_raises
    (c : HttpClient) (path : String)
    (params : Option (List (String × Option QVal))) (jbody : Option Json)
    (resp : Response)
    (h1 : isSuccess resp.status = true) (h2 : resp.body = none) :
    (c.get path params resp).2 = .decodeError ∧
    (c.post path jbody resp).2 = .decodeError ∧
    (c.put path jbody resp).2 = .decodeError ∧
    (c.delete path params resp).2 = .decodeError := by
  have hf := finish_success_decode h1 h2
  exact ⟨hf, hf, hf, hf⟩

/-- Witness for C9: a 200 response whose body `"not json"` fails to
decode is surfaced as a decode failure by `get`. -/
theorem success_decode_failure_raises_witness :
    isSuccess 200 = true ∧
    ((HttpClient.init "http://n" 30 none none).get "/api/test" none
        ⟨200, "not json", none⟩).2 = .decodeError :=
  ⟨by decide,
   (success_decode_failure_raises (HttpClient.init "http://n" 30 none none)
      "/api/test" none none ⟨200, "not json", none⟩ (by decide) rfl).1⟩

/-- C1: for every non-2xx response whose body parses as
`{"error": {"code": C, "message": M}}`, each of the four verbs raises a
`ClawTokenError` with `status` the HTTP status, `code = C` and
`message = M`. -/
theorem error_payload_extracted
    (c : HttpClient) (path : String)
    (params : Option (List (String × Option QVal))) (jbody : Option Json)
    (status : Nat) (text : String) (C M : Json)
    (h : isSuccess status = false) :
    (c.get path params
        ⟨status, text,
          some (Json.obj [("error", Json.obj [("code", C), ("message", M)])])⟩).2 =
      .nodeError { message := M, status := status, code := C } ∧
    (c.post path jbody
        ⟨status, text,
          some (Json.obj [("error", Json.obj [("code", C), ("message", M)])])⟩).2 =
      .nodeError { message := M, status := status, code := C } ∧
    (c.put path jbody
        ⟨status, text,
          some (Json.obj [("error", Json.obj [("code", C), ("message", M)])])⟩).2 =
      .nodeError { message := M, status := status, code := C } ∧
    (c.delete path params
        ⟨status, text,
          some (Json.obj [("error", Json.obj [("code", C), ("message", M)])])⟩).2 =
      .nodeError { message := M, status := status, code := C } := by
  have hf : finish
      ⟨status, text,
        some (Json.obj [("error", Json.obj [("code", C), ("message", M)])])⟩ =
      .nodeError { message := M, status := status, code := C } := by
    rw [finish_failure h]
    rfl
  exact ⟨hf, hf, hf, hf⟩

/-- Witness for C1: the spec's concrete scenario — `404` with body
`{"error": {"code": "NOT_FOUND", "message": "Resource not found"}}`. -/
theorem error_payload_extracted_witness :
    isSuccess 404 = false ∧
    ((HttpClient.init "http://n" 30 none none).get "/api/fail" none
        ⟨404, "irrelevant",
          some (Json.obj [("error",
            Json.obj [("code", Json.str "NOT_FOUND"),
                      ("message", Json.str "Resource not found")])])⟩).2 =
      .nodeError { message := Json.str "Resource not found", status := 404,
                   code := Json.str "NOT_FOUND" } :=
  ⟨by decide,
   (error_payload_extracted (HttpClient.init "http://n" 30 none none)
      "/api/fail" none none 404 "irrelevant" (Json.str "NOT_FOUND")
      (Json.str "Resource not found") (by decide)).1⟩

/-- Counterexample to C2 as stated: a `400` whose body is the JSON object
`{"error": {"code": "X"}}` — an object without an `error.message` field —
yields an error whose message is the raw body text, but whose code is the
extracted `"X"`, not unset. -/
theorem fallback_code_counterexample :
    ((HttpClient.init "http://n" 30 none none).get "/api/fail" none
        ⟨400, "boom",
          some (Json.obj [("error", Json.obj [("code", Json.str "X")])])⟩).2 =
      .nodeError { message := Json.str "boom", status := 400,
                   code := Json.str "X" } ∧
    Json.str "X" ≠ Json.null :=
  ⟨rfl, fun h => Json.noConfusion h⟩

/-- C2 (amended): for every non-2xx response, (a) if the body fails to
parse, parses to a non-object, or parses to an object whose `error` value
is not an object, every verb raises with message the raw body text and
code unset; (b) if the body parses to an object whose `error` value is an
object lacking a `"message"` key, the message still falls back to the raw
body text, but the code is extracted from `error.get("code")` (unset only
when that key too is absent). -/
theorem fallback_message_amended
    (c : HttpClient) (path : String)
    (params : Option (List (String × Option QVal))) (jbody : Option Json)
    (status : Nat) (text : String)
    (h : isSuccess status = false) :
    (∀ ob : Option Json, plainFallback ob = true →
      (c.get path params ⟨status, text, ob⟩).2 =
        .nodeError { message := Json.str text, status := status,
                     code := Json.null } ∧
      (c.post path jbody ⟨status, text, ob⟩).2 =
        .nodeError { message := Json.str text, status := status,
                     code := Json.null } ∧
      (c.put path jbody ⟨status, text, ob⟩).2 =
        .nodeError { message := Json.str text, status := status,
                     code := Json.null } ∧
      (c.delete path params ⟨status, text, ob⟩).2 =
        .nodeError { message := Json.str text, status := status,
                     code := Json.null }) ∧
    (∀ fields errFields : List (String × Json),
      dictGetD fields "error" (Json.obj []) = Json.obj errFields →
      errFields.lookup "message" = none →
      (c.get path params ⟨status, text, some (Json.obj fields)⟩).2 =
        .nodeError { message := Json.str text, status := status,
                     code := dictGetD errFields "code" Json.null } ∧
      (c.post path jbody ⟨status, text, some (Json.obj fields)⟩).2 =
        .nodeError { message := Json.str text, status := status,
                     code := dictGetD errFields "code" Json.null } ∧
      (c.put path jbody ⟨status, text, some (Json.obj fields)⟩).2 =
        .nodeError { message := Json.str text, status := status,
                     code := dictGetD errFields "code" Json.null } ∧
      (c.delete path params ⟨status, text, some (Json.obj fields)⟩).2 =
        .nodeError { message := Json.str text, status := status,
                     code := dictGetD errFields "code" Json.null }) := by
  constructor
  · intro ob hob
    have hp : handleErrorPair ⟨status, text, ob⟩ = (Json.str text, Json.null) := by
      cases ob with
      | none => rfl
      | some body =>
        cases body with
        | null => rfl
        | bool b => rfl
        | num n => rfl
        | str s => rfl
        | arr xs => rfl
        | obj fields =>
          rw [handleErrorPair_obj]
          simp only [plainFallback] at hob
          cases hdg : dictGetD fields "error" (Json.obj []) with
          | obj errFields => rw [hdg] at hob; simp at hob
          | null => rfl
          | bool b => rfl
          | num n => rfl
          | str s => rfl
          | arr xs => rfl
    have hf : finish ⟨status, text, ob⟩ =
        .nodeError { message := Json.str text, status := status,
                     code := Json.null } := by
      rw [finish_failure h, hp]
    exact ⟨hf, hf, hf, hf⟩
  · intro fields errFields hdg hm
    have hp : handleErrorPair ⟨status, text, some (Json.obj fields)⟩ =
        (Json.str text, dictGetD errFields "code" Json.null) := by
      rw [handleErrorPair_obj, hdg]
      simp [dictGetD, hm]
    have hf : finish ⟨status, text, some (Json.obj fields)⟩ =
        .nodeError { message := Json.str text, status := status,
                     code := dictGetD errFields "code" Json.null } := by
      rw [finish_failure h, hp]
    exact ⟨hf, hf, hf, hf⟩

/-- Witness for the amended C2: a `404` with an unparseable body
`"oops"`, and a `404` with body `{"error": {"code": "X"}}`. -/
theorem fallback_message_amended_witness :
    isSuccess 404 = false ∧
    plainFallback none = true ∧
    ((HttpClient.init "http://n" 30 none none).get "/api/x" none
        ⟨404, "oops", none⟩).2 =
      .nodeError { message := Json.str "oops", status := 404,
                   code := Json.null } ∧
    ((HttpClient.init "http://n" 30 none none).get "/api/x" none
        ⟨404, "oops",
          some (Json.obj [("error", Json.obj [("code", Json.str "X")])])⟩).2 =
      .nodeError { message := Json.str "oops", status := 404,
                   code := dictGetD [("code", Json.str "X")] "code" Json.null } :=
  ⟨by decide, rfl,
   ((fallback_message_amended (HttpClient.init "http://n" 30 none none)
      "/api/x" none none 404 "oops" (by decide)).1 none rfl).1,
   ((fallback_message_amended (HttpClient.init "http://n" 30 none none)
      "/api/x" none none 404 "oops" (by decide)).2
      [("error", Json.obj [("code", Json.str "X")])]
      [("code", Json.str "X")] rfl rfl).1⟩

/-- C3: for every base URL, path and query mapping, keys bound to `None`
never change the constructed URL (dropping them first is a no-op); an
all-`None` (or empty, or absent) mapping appends no `?` suffix; and the
concrete scenario: GET `/api/wallet/balance` with
`{did: "did:x", address: None}` issues a request to
`.../api/wallet/balance?did=did%3Ax`. -/
theorem query_none_omitted
    (base path : String) (ps : List (String × Option QVal)) :
    (build_url base path (some ps) =
      build_url base path (some (ps.filter (fun p => p.2.isSome)))) ∧
    ((∀ p ∈ ps, p.2 = none) →
      build_url base path (some ps) = rstripSlash base ++ path) ∧
    build_url base path none = rstripSlash base ++ path ∧
    (WalletApi.get_balance (HttpClient.init "http://node" 30 none none)
        (some "did:x") none ⟨200, "", some (Json.obj [])⟩).1.url =
      "http://node/api/wallet/balance?did=did%3Ax" := by
  refine ⟨?_, ?_, rfl, rfl⟩
  · rw [build_url_some, build_url_some, filterMap_filter_isSome]
  · intro hall
    rw [build_url_some]
    have hempty : ps.filterMap (fun p => p.2.map (fun v => (p.1, v))) = [] := by
      rw [List.filterMap_eq_nil_iff]
      intro p hp
      rw [hall p hp]
      rfl
    rw [hempty]
    rfl

/-- Witness for C3 at a concrete mapping with one `None`-valued and one
string-valued key. -/
theorem query_none_omitted_witness :
    build_url "http://node" "/api/wallet/balance"
        (some [("did", some (QVal.str "did:x")), ("address", none)]) =
      build_url "http://node" "/api/wallet/balance"
        (some ([("did", some (QVal.str "did:x")), ("address", none)].filter
          (fun p => p.2.isSome))) ∧
    build_url "http://node" "/api/nothing" (some [("a", none), ("b", none)]) =
      rstripSlash "http://node" ++ "/api/nothing" :=
  ⟨(query_none_omitted "http://node" "/api/wallet/balance"
      [("did", some (QVal.str "did:x")), ("address", none)]).1,
   (query_none_omitted "http://node" "/api/nothing"
      [("a", none), ("b", none)]).2.1 (by decide)⟩

/-- C8: for every configuration, path, query mapping, body and server
response, the asynchronous client's verbs build the same URL, attach the
same headers, and return or raise the same result as the synchronous
client's corresponding operation. -/
theorem async_sync_agree
    (base : String) (tmo : ℚ) (key : Option String)
    (hs : Option (List (String × String))) (path : String)
    (params : Option (List (String × Option QVal))) (jbody : Option Json)
    (resp : Response) :
    (AsyncHttpClient.init base tmo key hs).base_url =
      (HttpClient.init base tmo key hs).base_url ∧
    (AsyncHttpClient.init base tmo key hs).timeout =
      (HttpClient.init base tmo key hs).timeout ∧
    (AsyncHttpClient.init base tmo key hs).headers =
      (HttpClient.init base tmo key hs).headers ∧
    (AsyncHttpClient.init base tmo key hs).get path params resp =
      (HttpClient.init base tmo key hs).get path params resp ∧
    (AsyncHttpClient.init base tmo key hs).post path jbody resp =
      (HttpClient.init base tmo key hs).post path jbody resp ∧
    (AsyncHttpClient.init base tmo key hs).put path jbody resp =
      (HttpClient.init base tmo key hs).put path jbody resp ∧
    (AsyncHttpClient.init base tmo key hs).delete path params resp =
      (HttpClient.init base tmo key hs).delete path params resp :=
  ⟨rfl, rfl, rfl, rfl, rfl, rfl, rfl⟩

/-- C5: for every poll interval and timeout, if the first status fetch
already reports synced, `wait_for_sync` returns that status immediately:
one fetch, zero sleeps. -/
theorem wait_first_fetch_synced
    (statuses : Nat → List (String × Json)) (interval timeout : ℚ)
    (fuel : Nat) (hfuel : 1 ≤ fuel)
    (hsync : (dictGetD (statuses 0) "synced" Json.null).truthy = true) :
    wait_for_sync statuses interval timeout fuel = .done (statuses 0) 1 0 := by
  obtain ⟨f, rfl⟩ : ∃ f, fuel = f + 1 := ⟨fuel - 1, by omega⟩
  unfold wait_for_sync
  rw [waitLoop, hsync]
  rfl

/-- Witness for C5: a first fetch reporting synced returns at once. -/
theorem wait_first_fetch_synced_witness :
    wait_for_sync constSynced 2 60 1 = .done (constSynced 0) 1 0 :=
  wait_first_fetch_synced constSynced 2 60 1 (by decide) rfl

/-- C6: for every positive poll interval and nonnegative timeout, against
a status endpoint that never reports synced, `wait_for_sync` raises the
timeout failure (with fetches made instantaneous) after
`timeoutSteps interval timeout` sleeps, at an elapsed time of
`timeoutSteps interval timeout * interval`, which is no earlier than
`timeout` and no later than `timeout + interval`. -/
theorem wait_timeout_bounds
    (statuses : Nat → List (String × Json)) (interval timeout : ℚ)
    (fuel : Nat) (hi : 0 < interval) (ht : 0 ≤ timeout)
    (hns : ∀ n, (dictGetD (statuses n) "synced" Json.null).truthy = false)
    (hfuel : timeoutSteps interval timeout < fuel) :
    wait_for_sync statuses interval timeout fuel =
      .timedOut (timeoutSteps interval timeout + 1)
        (timeoutSteps interval timeout) ∧
    timeout ≤ (timeoutSteps interval timeout : ℚ) * interval ∧
    (timeoutSteps interval timeout : ℚ) * interval ≤ timeout + interval := by
  refine ⟨?_, ?_, ?_⟩
  · exact waitLoop_never_synced hi hns fuel 0 (by omega) (by omega)
  · exact (deadline_iff hi (timeoutSteps interval timeout)).mpr le_rfl
  · cases hN : timeoutSteps interval timeout with
    | zero =>
      simp only [Nat.cast_zero, zero_mul]
      exact add_nonneg ht hi.le
    | succ m =>
      have hm : (m : ℚ) < timeout / interval := by
        apply Nat.lt_ceil.mp
        rw [← timeoutSteps, hN]
        omega
      have hmi : (m : ℚ) * interval < timeout := (lt_div_iff₀ hi).mp hm
      push_cast
      nlinarith

/-- Witness for C6: interval 2, timeout 3, a never-synced endpoint; the
failure comes after 3 fetches and 2 sleeps, i.e. at elapsed time 4 with
3 ≤ 4 ≤ 5. -/
theorem wait_timeout_bounds_witness :
    wait_for_sync constUnsynced 2 3 5 =
      .timedOut (timeoutSteps 2 3 + 1) (timeoutSteps 2 3) ∧
    (3 : ℚ) ≤ (timeoutSteps 2 3 : ℚ) * 2 ∧
    (timeoutSteps 2 3 : ℚ) * 2 ≤ 3 + 2 :=
  wait_timeout_bounds constUnsynced 2 3 5 (by decide) (by decide)
    (fun _ => rfl) timeoutSteps_two_three_lt

/-- C7: `wait_for_sync` never raises its timeout failure before one
status fetch has been issued — whenever the loop (entered at any fetch
index) times out, at least one fetch was made — and for a timeout no
larger than zero (in particular smaller than any positive poll interval)
exactly one fetch is made before failing. -/
theorem wait_one_attempt :
    (∀ (statuses : Nat → List (String × Json)) (interval timeout : ℚ)
       (fuel n k s : Nat),
       waitLoop statuses interval timeout fuel n = .timedOut k s → 1 ≤ k) ∧
    (∀ (statuses : Nat → List (String × Json)) (interval timeout : ℚ)
       (fuel : Nat), 1 ≤ fuel → timeout ≤ 0 →
       (dictGetD (statuses 0) "synced" Json.null).truthy = false →
       wait_for_sync statuses interval timeout fuel = .timedOut 1 0) := by
  constructor
  · intro statuses interval timeout fuel n k s h
    have := waitLoop_timedOut_pos fuel n k s h
    omega
  · intro statuses interval timeout fuel hfuel ht hns
    obtain ⟨f, rfl⟩ : ∃ f, fuel = f + 1 := ⟨fuel - 1, by omega⟩
    unfold wait_for_sync
    rw [waitLoop, hns]
    simp only [Bool.false_eq_true, if_false]
    rw [if_pos]
    simp only [Nat.cast_zero, zero_mul]
    exact ht

/-- Witness for C7: timeout 0 with poll interval 2 against a never-synced
endpoint still makes exactly one fetch before the timeout failure. -/
theorem wait_one_attempt_witness :
    wait_for_sync constUnsynced 2 0 1 = .timedOut 1 0 :=
  wait_one_attempt.2 constUnsynced 2 0 1 (by decide) (by decide) rfl

/-- C10: for a client constructed with both a non-empty `api_key` and an
extra header mapping containing `Authorization`, every request carries
the caller-supplied `Authorization` value (the extra headers are merged
after the bearer header and override it), just as a caller-supplied
`Content-Type` overrides the default one. -/
theorem caller_auth_header_wins
    (base : String) (tmo : ℚ) (key : String)
    (extra : List (String × String)) (v : String) (path : String)
    (params : Option (List (String × Option QVal))) (jbody : Option Json)
    (resp : Response)
    (hkey : key ≠ "")
    (hnd : (extra.map Prod.fst).Nodup)
    (hauth : extra.lookup "Authorization" = some v) :
    (HttpClient.init base tmo (some key) (some extra)).headers.lookup
        "Authorization" = some v ∧
    ((HttpClient.init base tmo (some key) (some extra)).get path params
        resp).1.headers.lookup "Authorization" = some v ∧
    ((HttpClient.init base tmo (some key) (some extra)).post path jbody
        resp).1.headers.lookup "Authorization" = some v ∧
    ((HttpClient.init base tmo (some key) (some extra)).put path jbody
        resp).1.headers.lookup "Authorization" = some v ∧
    ((HttpClient.init base tmo (some key) (some extra)).delete path params
        resp).1.headers.lookup "Authorization" = some v ∧
    (∀ ct, extra.lookup "Content-Type" = some ct →
      (HttpClient.init base tmo (some key) (some extra)).headers.lookup
        "Content-Type" = some ct) := by
  have hne : extra.isEmpty = false := by
    cases extra with
    | nil => simp [List.lookup] at hauth
    | cons hd tl => rfl
  have hkb : (key != "") = true := by simpa using hkey
  have hheaders : (HttpClient.init base tmo (some key) (some extra)).headers =
      dictUpdate
        (dictSet [("Content-Type", "application/json")] "Authorization"
          ("Bearer " ++ key)) extra := by
    simp [HttpClient.init, mkHeaders, hkb, hne]
  have h1 : (HttpClient.init base tmo (some key) (some extra)).headers.lookup
      "Authorization" = some v := by
    rw [hheaders]
    exact lookup_dictUpdate_mem _ _ _ _ hnd hauth
  refine ⟨h1, h1, h1, h1, h1, ?_⟩
  intro ct hct
  rw [hheaders]
  exact lookup_dictUpdate_mem _ _ _ _ hnd hct

/-- Witness for C10: `api_key = "secret"` together with an extra header
`Authorization: tok` yields requests carrying `tok`. -/
theorem caller_auth_header_wins_witness :
    "secret" ≠ "" ∧
    ((HttpClient.init "http://n" 30 (some "secret")
        (some [("Authorization", "tok")])).get "/api/x" none
        ⟨200, "", some (Json.obj [])⟩).1.headers.lookup "Authorization" =
      some "tok" :=
  ⟨by decide,
   (caller_auth_header_wins "http://n" 30 "secret" [("Authorization", "tok")]
      "tok" "/api/x" none none ⟨200, "", some (Json.obj [])⟩ (by decide)
      (by decide) rfl).2.1⟩

end ClawNet
